import Mathlib

/-!
Verification of the string inflector helpers and the tree-data provider
pipeline of the vscode-nextjs-generator extension.

A JavaScript string is embedded as a Lean `String`; character-level
operations work on its `data : List Char`.  JavaScript semantics that the
source relies on are modelled explicitly:

* `str.endsWith(p)`     — suffix test on the character list;
* `str.slice(0, -n)`    — take all but the last `n` characters;
* `str.includes(p)`     — infix (substring) test on the character list;
* `str.split(sep)` with a one-character separator — splitting that keeps
  empty components (so `"".split(" ") = [""]`);
* the regex `/(?:^\w|[A-Z]|\b\w)/g` used by the case-conversion helpers —
  every match is a single character, so a global replace is a left-to-right
  scan over the characters carrying the match offset and the previous
  character;
* `\s+` global replace — collapsing runs of whitespace;
* numbers appearing in the helpers are integers, `%` is `Int.tmod`
  (JavaScript remainder truncates toward zero).
-/

/-- JavaScript `\w` character class `[A-Za-z0-9_]` (ASCII). -/
def isWordChar (c : Char) : Bool :=
  c.isAlpha || c.isDigit || c == '_'

/-- JavaScript `\s` on the ASCII range: space, tab, line feed, carriage
return, vertical tab, form feed. -/
def isJsSpace (c : Char) : Bool :=
  c == ' ' || c == '\t' || c == '\n' || c == '\r' || c == '\x0b' || c == '\x0c'

/-- Model of `str.endsWith(suffix)`. -/
def jsEndsWith (s suffix : String) : Bool :=
  decide (suffix.data <:+ s.data)

/-- Model of `str.slice(0, -n)` for `n ≥ 1`: all but the last `n`
characters (the empty string when `n` exceeds the length, as in JS). -/
def jsSliceDropRight (s : String) (n : Nat) : String :=
  String.mk (s.data.take (s.data.length - n))

/-- Model of `str.includes(pat)`: substring test. -/
def jsIncludes (s pat : String) : Bool :=
  decide (pat.data <:+: s.data)

/-- Model of `str.trim()`: remove leading and trailing whitespace. -/
def jsTrim (s : String) : String :=
  String.mk (((s.data.dropWhile isJsSpace).reverse.dropWhile isJsSpace).reverse)

/-- Model of `str.split(' ')` on the character list: empty components are
kept, and the empty string yields one empty component. -/
def jsSplitSpace : List Char → List (List Char)
  | [] => [[]]
  | c :: cs =>
    if c = ' ' then [] :: jsSplitSpace cs
    else
      match jsSplitSpace cs with
      | w :: ws => (c :: w) :: ws
      | [] => [[c]]

/-- One pass of the global regex `/(?:^\w|[A-Z]|\b\w)/g`: a single
character `c` at offset `i` (previous character `prev`, `none` at the
start) matches when it is a word character at offset 0, an ASCII
uppercase letter, or a word character preceded by a non-word character
(a `\b\w` match). -/
def boundaryMatch (i : Nat) (prev : Option Char) (c : Char) : Bool :=
  (i == 0 && isWordChar c) || c.isUpper ||
    (isWordChar c &&
      (match prev with
       | none => true
       | some p => !isWordChar p))

/-- Global replace of `/(?:^\w|[A-Z]|\b\w)/g` by the callback `repl`
(which receives the match offset, as the JS replacer callbacks in the
source do).  Every match is one character long, so the scan advances one
character at a time. -/
def boundaryReplace (repl : Nat → Char → List Char) :
    Nat → Option Char → List Char → List Char
  | _, _, [] => []
  | i, prev, c :: cs =>
    (if boundaryMatch i prev c then repl i c else [c]) ++
      boundaryReplace repl (i + 1) (some c) cs

/-- Global replace of `/\s+/g` by a single underscore: each maximal run
of whitespace becomes one `_`.  The Boolean flag records whether the
previous character was whitespace (whether we are inside a run). -/
def collapseWsGo : Bool → List Char → List Char
  | _, [] => []
  | inRun, c :: cs =>
    if isJsSpace c then
      (if inRun then [] else ['_']) ++ collapseWsGo true cs
    else
      c :: collapseWsGo false cs

/-- Global replace of `/\s+/g` by `_`. -/
def collapseWsToUnderscore (l : List Char) : List Char :=
  collapseWsGo false l

/-!
## inflector.helper.ts
-/

/-- `underscore` (inflector.helper.ts, lines 36-42): replace each match of
`/(?:^\w|[A-Z]|\b\w)/g` by its lowercase form, preceded by `_` except at
offset 0, then replace `/\s+/g` by `_`.  (All matched characters are
ASCII, where JS `toLowerCase` agrees with `Char.toLower`.) -/
def underscore (str : String) : String :=
  String.mk
    (collapseWsToUnderscore
      (boundaryReplace
        (fun i c => if i == 0 then [c.toLower] else ['_', c.toLower])
        0 none str.data))

/-- `decamelize` (inflector.helper.ts, lines 49-55): character for
character the same body as `underscore`. -/
def decamelize (str : String) : String :=
  String.mk
    (collapseWsToUnderscore
      (boundaryReplace
        (fun i c => if i == 0 then [c.toLower] else ['_', c.toLower])
        0 none str.data))

/-- `isPluralizable` (inflector.helper.ts, lines 79-81):
`str.endsWith('s')`. -/
def isPluralizable (str : String) : Bool :=
  jsEndsWith str "s"

/-- `ordinal` (inflector.helper.ts, lines 105-119): `j = num % 10`,
`k = num % 100`, and the 1st/2nd/3rd suffixes with the 11/12/13
exceptions.  The returned string is `` `${num}st` `` and so on — it
already contains the number. -/
def ordinal (num : Int) : String :=
  let j := num.tmod 10
  let k := num.tmod 100
  if j == 1 && k != 11 then toString num ++ "st"
  else if j == 2 && k != 12 then toString num ++ "nd"
  else if j == 3 && k != 13 then toString num ++ "rd"
  else toString num ++ "th"

/-- `ordinalize` (inflector.helper.ts, lines 130-132):
`` `${num}${ordinal(num)}` `` — the number, followed by `ordinal num`
(which itself starts with the number). -/
def ordinalize (num : Int) : String :=
  toString num ++ ordinal num

/-- `pluralize` (inflector.helper.ts, lines 139-147). -/
def pluralize (str : String) : String :=
  if jsEndsWith str "y" then jsSliceDropRight str 1 ++ "ies"
  else if jsEndsWith str "s" then str
  else str ++ "s"

/-- `singularize` (inflector.helper.ts, lines 154-162). -/
def singularize (str : String) : String :=
  if jsEndsWith str "ies" then jsSliceDropRight str 3 ++ "y"
  else if jsEndsWith str "s" then jsSliceDropRight str 1
  else str

/-- JS `word[0].toUpperCase() + word.slice(1)` on one word of `titleize`:
indexing `word[0]` of an empty word yields `undefined`, on which
`.toUpperCase()` throws — modelled as `none`. -/
def capitalizeWord : List Char → Option (List Char)
  | [] => none
  | c :: rest => some (c.toUpper :: rest)

/-- Mapping a fallible word transform over the word list; the first
failure (a thrown TypeError) aborts the whole call. -/
def mapWordsOption (f : List Char → Option (List Char)) :
    List (List Char) → Option (List (List Char))
  | [] => some []
  | w :: ws =>
    match f w with
    | none => none
    | some w2 =>
      match mapWordsOption f ws with
      | none => none
      | some ws2 => some (w2 :: ws2)

/-- `titleize` (inflector.helper.ts, lines 173-178):
`str.split(' ').map(word => word[0].toUpperCase() + word.slice(1)).join(' ')`.
The result is `none` exactly when some split component is empty, in which
case the source throws instead of returning a string. -/
def titleize (str : String) : Option String :=
  (mapWordsOption capitalizeWord (jsSplitSpace str.data)).map
    (fun ws => String.mk (List.intercalate [' '] ws))

/-!
## Data model of the tree providers

`NodeModel` is Modelled from the spec: the class itself lives outside
`src/` (only its users are present).  Spec §3: a node carries a display
label, an optional invocation descriptor "jump to this location" holding
a file reference (possibly absent) and a line index, and a list of child
nodes.  Icons are presentation-only and are not modelled.
-/

/-- Modelled from the spec: a tree node (spec §3) — display label,
optional goto-line invocation descriptor `(resource, line index)` where
the resource reference itself may be absent, and children. -/
inductive NodeModel where
  | mk (label : String) (command : Option (Option String × Nat))
       (children : List NodeModel)

/-- The display label of a node. -/
def NodeModel.label : NodeModel → String
  | .mk l _ _ => l

/-- The goto-line invocation descriptor of a node. -/
def NodeModel.command : NodeModel → Option (Option String × Nat)
  | .mk _ c _ => c

/-- The children of a node. -/
def NodeModel.children : NodeModel → List NodeModel
  | .mk _ _ cs => cs

/-- A workspace file as seen by a provider scan: the display label and
resource locator come from the external file enumerator
(`ListFilesController.getFiles`), and `readResult` records the outcome of
`workspace.openTextDocument` on that file — its lines, or a read error.
Both collaborators are external to `src/` (spec §6). -/
structure ScanFile where
  label : String
  resourceUri : Option String
  readResult : Except String (List String)

/-!
## ListComponentsProvider.getListComponents (list-components.providers.ts)
-/

/-- First match of `/<\/?([A-Z][A-Za-z0-9_]*)\b/` in a line, returning
capture group 1.  Every match starts with `<`, an optional `/`, then an
ASCII uppercase letter followed by the maximal run of word characters
(the trailing `\b` is then automatic).  `exec` returns the leftmost
match, so the scan walks the line left to right. -/
def firstComponentName : List Char → Option (List Char)
  | [] => none
  | '<' :: '/' :: c :: rest =>
    if c.isUpper then some (c :: rest.takeWhile isWordChar)
    else firstComponentName ('/' :: c :: rest)
  | '<' :: c :: rest =>
    if c.isUpper then some (c :: rest.takeWhile isWordChar)
    else firstComponentName (c :: rest)
  | _ :: rest => firstComponentName rest

/-- Lines 177-197 of list-components.providers.ts: for every 0-indexed
line, run the component regex; on a match whose trimmed capture is
nonempty, emit a leaf node labelled with the captured tag name and
carrying the goto-line arguments `(resourceUri, index)`. -/
def componentLineNodes (uri : String) (lines : List String) : List NodeModel :=
  lines.enum.filterMap (fun p =>
    match firstComponentName p.2.data with
    | some w =>
      let componentName := jsTrim (String.mk w)
      if componentName = "" then none
      else some (NodeModel.mk componentName (some (some uri, p.1)) [])
    | none => none)

/-- Lines 165-207: the children computed for one file.  A file without a
resource locator gets no children; a file whose content cannot be read is
caught (`try`/`catch`), logged, and also gets no children. -/
def componentFileChildren (f : ScanFile) : List NodeModel :=
  match f.resourceUri with
  | none => []
  | some uri =>
    match f.readResult with
    | .error _ => []
    | .ok lines => componentLineNodes uri lines

/-- `getListComponents` (lines 153-213): enumerate the files (`[]` when
the enumerator yields nothing), attach the per-file children, and keep
the files with at least one child.  The bounded-concurrency `pLimit(2)`
map over files is order-preserving, so it is modelled as a plain map. -/
def getListComponents (allFiles : Option (List ScanFile)) :
    List (ScanFile × List NodeModel) :=
  match allFiles with
  | none => []
  | some fs =>
    (fs.map (fun f => (f, componentFileChildren f))).filter
      (fun p => decide (0 < p.2.length))

/-!
## ListHooksProvider.getListHooks (list-hooks.providers.ts, lines 89-143)
-/

/-- The fixed hook-name alternation of the hooks regex. -/
def hookNames : List String :=
  ["useCallback", "useContext", "useDebugValue", "useDeferredValue",
   "useEffect", "useId", "useImperativeHandle", "useInsertionEffect",
   "useLayoutEffect", "useMemo", "useReducer", "useRef", "useState",
   "useSyncExternalStore", "useTransition"]

/-- `line.text.match(/(useCallback|…|useTransition)/gi)`: the line
matches when it contains one of the fixed hook names, case-insensitively
(the names are ASCII, so case folding is `Char.toLower`). -/
def lineMatchesHook (text : String) : Bool :=
  hookNames.any (fun h =>
    decide ((h.data.map Char.toLower) <:+: (text.data.map Char.toLower)))

/-- Lines 102-133: one leaf node per matching 0-indexed line, labelled
with the trimmed line text and carrying `(file.resourceUri, index)`. -/
def hooksFileChildren (uri : Option String) (lines : List String) :
    List NodeModel :=
  lines.enum.filterMap (fun p =>
    if lineMatchesHook p.2 then
      some (NodeModel.mk (jsTrim p.2) (some (uri, p.1)) [])
    else none)

/-- The sequential `for … of` loop of `getListHooks`: each iteration
awaits `workspace.openTextDocument` with no `try`/`catch`, so the first
file whose content cannot be read rejects the whole call. -/
def hooksScanAll : List ScanFile → Except String (List (ScanFile × List NodeModel))
  | [] => .ok []
  | f :: rest => do
    let lines ← f.readResult
    let tail ← hooksScanAll rest
    pure ((f, hooksFileChildren f.resourceUri lines) :: tail)

/-- `getListHooks` (lines 89-143): `undefined` when the enumerator yields
nothing; otherwise scan every file sequentially (a read error rejects the
call), keep the files with children, and return them — or `undefined`
when no file has children. -/
def getListHooks (allFiles : Option (List ScanFile)) :
    Except String (Option (List (ScanFile × List NodeModel))) :=
  match allFiles with
  | none => .ok none
  | some fs => do
    let scanned ← hooksScanAll fs
    let hookNodes := scanned.filter (fun p => decide (p.2.length ≠ 0))
    pure (if 0 < hookNodes.length then some hookNodes else none)

/-!
## ListFilesProvider.getListFiles — file-type grouping

Two variants exist in the repository: the plain one
(list-files.providers.ts, lines 114-150) and the promise-cached one
(the second ListFilesProvider, lines 291-328 of the claims numbering),
which titleizes the category in the label and runs the categories under
`pLimit(2)` + `Promise.all` (order-preserving).  The configured watch
list (`ListFilesController.config.watch`) and the enumerated files are
external inputs.
-/

/-- `getListFiles` (list-files.providers.ts, lines 114-150): for each
watch category in order, keep the files whose label contains the
singularized category; a category with no matching files contributes
nothing, otherwise it contributes a grouping node labelled
`` `${fileType}: ${filesOfType.length}` `` whose children are the
matching file nodes; `undefined` when the enumerator yields nothing or no
category matched. -/
def getListFiles (watch : List String) (files : Option (List NodeModel)) :
    Option (List NodeModel) :=
  match files with
  | none => none
  | some fs =>
    let fileTypeNodes := watch.filterMap (fun fileType =>
      let filesOfType := fs.filter (fun file =>
        jsIncludes file.label (singularize fileType))
      if filesOfType.length ≠ 0 then
        some (NodeModel.mk (fileType ++ ": " ++ toString filesOfType.length)
          none filesOfType)
      else none)
    if fileTypeNodes.length = 0 then none else some fileTypeNodes

/-- One category of the cached variant (lines 304-323): filter by the
singularized category; `undefined` for an empty category, otherwise a
node labelled `` `${titleize(type)}: ${children.length}` `` — and
`titleize` can throw, which rejects the population. -/
def cachedGroup (fs : List NodeModel) (type : String) :
    Except String (Option NodeModel) :=
  let suffix := singularize type
  let children := fs.filter (fun file => jsIncludes file.label suffix)
  if children.length = 0 then .ok none
  else
    match titleize type with
    | none => .error "TypeError"
    | some t =>
      .ok (some (NodeModel.mk (t ++ ": " ++ toString children.length)
        none children))

/-- The `Promise.all` over the watch list in the cached variant:
results in watch-list order. -/
def cachedGroups (watch : List String) (fs : List NodeModel) :
    Except String (List (Option NodeModel)) :=
  match watch with
  | [] => .ok []
  | type :: rest => do
    let node ← cachedGroup fs type
    let tail ← cachedGroups rest fs
    pure (node :: tail)

/-- `getListFiles`, cached variant (lines 291-328): `undefined` when the
enumerator yields nothing; otherwise the non-`undefined` grouping nodes
in watch-list order (an empty result stays an empty list here). -/
def getListFilesCached (watch : List String) (files : Option (List NodeModel)) :
    Except String (Option (List NodeModel)) :=
  match files with
  | none => .ok none
  | some fs => do
    let groups ← cachedGroups watch fs
    pure (some (groups.filterMap id))

/-!
## The tree cache controller state machine

`ListComponentsProvider` (list-components.providers.ts, lines 44-130)
keeps two nullable fields `_cachedNodes` and `_cachePromise`; the cached
`ListFilesProvider` variant has the identical structure.  The host event
loop is single threaded, so each of `getChildren`, the `.then`
continuation of a finished population, and `refresh` runs atomically —
the system is embedded as a state machine whose steps are exactly these
three operations.  `scanCalls` counts the invocations of the underlying
population scan (`getListComponents`), `fired` counts change
notifications emitted through `TreeRefreshBase`, and pending populations
are numbered by a fresh counter `nextOp` (two requests observe the same
promise object exactly when they observe the same number). -/
structure CacheProviderState where
  cachedNodes : Option (List NodeModel)
  cachePromise : Option Nat
  scanCalls : Nat
  fired : Nat
  nextOp : Nat

/-- What a `getChildren` call hands back to the tree view: a node list
synchronously, or a pending population operation. -/
inductive ChildrenResult where
  | sync (nodes : List NodeModel)
  | pending (op : Nat)

/-- Provider state at construction: both cache fields `undefined`, no
scan run, no notification fired. -/
def initialCacheState : CacheProviderState :=
  { cachedNodes := none, cachePromise := none, scanCalls := 0, fired := 0,
    nextOp := 0 }

namespace ListComponentsProvider

/-- `getChildren` (lines 97-117): children of the given element when one
is supplied; otherwise the cached nodes synchronously when present, else
the already-pending population when present, else start a population
(invoking `getListComponents` — `scanCalls` increments) and return it as
pending. -/
def getChildren (s : CacheProviderState) (element : Option NodeModel) :
    CacheProviderState × ChildrenResult :=
  match element with
  | some e => (s, .sync e.children)
  | none =>
    match s.cachedNodes with
    | some ns => (s, .sync ns)
    | none =>
      match s.cachePromise with
      | some op => (s, .pending op)
      | none =>
        ({ s with cachePromise := some s.nextOp,
                  scanCalls := s.scanCalls + 1,
                  nextOp := s.nextOp + 1 },
         .pending s.nextOp)

/-- The `.then` continuation installed at lines 110-114: when the
population it belongs to completes with `nodes`, store them in
`_cachedNodes` and clear `_cachePromise`.  The closure does not check
whether it is still the current population — it writes unconditionally. -/
def resolvePopulation (s : CacheProviderState) (nodes : List NodeModel) :
    CacheProviderState :=
  { s with cachedNodes := some nodes, cachePromise := none }

/-- `refresh` (lines 126-130): clear both cache fields, then
`super.refresh()` (tree-refresh-base.ts, lines 38-40) fires the change
event once. -/
def refresh (s : CacheProviderState) : CacheProviderState :=
  { s with cachedNodes := none, cachePromise := none, fired := s.fired + 1 }

end ListComponentsProvider

/-- State of `ListHooksProvider`, which has no cache fields: only the
scan counter and the fresh-operation counter are observable. -/
structure HooksProviderState where
  scanCalls : Nat
  nextOp : Nat

namespace ListHooksProvider

/-- `getChildren` (list-hooks.providers.ts, lines 75-81): children of the
given element when one is supplied; otherwise it always calls
`this.getListHooks()` and returns that fresh promise — there is no
memoization of any kind. -/
def getChildren (s : HooksProviderState) (element : Option NodeModel) :
    HooksProviderState × ChildrenResult :=
  match element with
  | some e => (s, .sync e.children)
  | none =>
    ({ scanCalls := s.scanCalls + 1, nextOp := s.nextOp + 1 },
     .pending s.nextOp)

end ListHooksProvider

/-!
## Concrete inputs used by the witnesses and counterexamples
-/

/-- The watch-category list of the grouping test case in the spec. -/
def watchDemo : List String := ["components", "pages"]

/-- A file node labelled `Button.component.tsx`. -/
def buttonFile : NodeModel := NodeModel.mk "Button.component.tsx" none []

/-- A file node labelled `Home.page.tsx`. -/
def homeFile : NodeModel := NodeModel.mk "Home.page.tsx" none []

/-- A file node labelled `utils.ts`. -/
def utilsFile : NodeModel := NodeModel.mk "utils.ts" none []

/-- The file list of the grouping test case in the spec. -/
def filesDemo : List NodeModel := [buttonFile, homeFile, utilsFile]

/-- A file whose content cannot be read. -/
def badFile : ScanFile :=
  { label := "bad.ts", resourceUri := some "bad.ts",
    readResult := .error "EACCES" }

/-- A readable file with one hook-matching line. -/
def goodFile : ScanFile :=
  { label := "good.ts", resourceUri := some "good.ts",
    readResult := .ok ["const count = useState(0);"] }

/-- A small auxiliary fact: two strings with the same character data are
equal. -/
theorem string_eq_of_data {s t : String} (h : s.data = t.data) : s = t := by
  cases s
  cases t
  exact congrArg String.mk h

/-!
## Claim theorems
-/

/-- C2: the spec claims `ordinalize(1) = "1st"`, `ordinalize(11) = "11th"`,
`ordinalize(22) = "22nd"`, `ordinalize(13) = "13th"`.  Evaluating the
code: `ordinal` alone produces exactly those strings, but `ordinalize`
prepends the number a second time, so `ordinalize 1 = "11st"` and so on —
the code contradicts its own documentation (both doc comments promise the
ordinal form of the number). -/
theorem ordinalize_doubles_the_number :
    ordinal 1 = "1st" ∧ ordinal 11 = "11th" ∧ ordinal 22 = "22nd" ∧
    ordinal 13 = "13th" ∧
    ordinalize 1 = "11st" ∧ ordinalize 11 = "1111th" ∧
    ordinalize 22 = "2222nd" ∧ ordinalize 13 = "1313th" ∧
    ordinalize 1 ≠ "1st" := by
  decide

/-- C8: `underscore` and `decamelize` are extensionally equal — their
bodies are character for character the same replace pipeline. -/
theorem underscore_eq_decamelize (s : String) : underscore s = decamelize s :=
  rfl

/-- C8 witness: the equality at a concrete input. -/
theorem underscore_eq_decamelize_witness :
    underscore "fooBar baz" = decamelize "fooBar baz" :=
  underscore_eq_decamelize "fooBar baz"

/-- C7: the stale-write race is present: a population started before a
`refresh()` resolves afterwards, writes its stale node list into
`_cachedNodes`, and the next root children-request returns that stale
list synchronously without invoking the scanner again. -/
theorem stale_population_overwrites_refresh :
    (ListComponentsProvider.resolvePopulation
        (ListComponentsProvider.refresh
          (ListComponentsProvider.getChildren initialCacheState none).1)
        [NodeModel.mk "old" none []]).cachedNodes =
      some [NodeModel.mk "old" none []] ∧
    (ListComponentsProvider.getChildren
        (ListComponentsProvider.resolvePopulation
          (ListComponentsProvider.refresh
            (ListComponentsProvider.getChildren initialCacheState none).1)
          [NodeModel.mk "old" none []]) none).2 =
      .sync [NodeModel.mk "old" none []] ∧
    (ListComponentsProvider.getChildren
        (ListComponentsProvider.resolvePopulation
          (ListComponentsProvider.refresh
            (ListComponentsProvider.getChildren initialCacheState none).1)
          [NodeModel.mk "old" none []]) none).1.scanCalls = 1 :=
  ⟨rfl, rfl, rfl⟩

/-- C6: `refresh()` clears the cached node list and the pending
population, fires the change notification exactly once, and the next root
children-request starts a new population (the scanner is invoked
again). -/
theorem refresh_clears_and_fires_once (s : CacheProviderState) :
    (ListComponentsProvider.refresh s).cachedNodes = none ∧
    (ListComponentsProvider.refresh s).cachePromise = none ∧
    (ListComponentsProvider.refresh s).fired = s.fired + 1 ∧
    (ListComponentsProvider.getChildren
        (ListComponentsProvider.refresh s) none).1.scanCalls =
      s.scanCalls + 1 ∧
    (ListComponentsProvider.getChildren
        (ListComponentsProvider.refresh s) none).2 = .pending s.nextOp :=
  ⟨rfl, rfl, rfl, rfl, rfl⟩

/-- C6 witness: the refresh properties at the construction state. -/
theorem refresh_clears_and_fires_once_witness :
    (ListComponentsProvider.refresh initialCacheState).fired =
      initialCacheState.fired + 1 :=
  (refresh_clears_and_fires_once initialCacheState).2.2.1

/-- C1 counterexample: the claim quantifies over every provider instance,
but `ListHooksProvider.getChildren` has no memoization — two back-to-back
root children-requests invoke the scanner twice (not once) and hand back
two distinct pending operations. -/
theorem hooks_provider_scans_twice :
    (ListHooksProvider.getChildren
        (ListHooksProvider.getChildren ⟨0, 0⟩ none).1 none).1.scanCalls = 2 ∧
    (ListHooksProvider.getChildren ⟨0, 0⟩ none).2 = .pending 0 ∧
    (ListHooksProvider.getChildren
        (ListHooksProvider.getChildren ⟨0, 0⟩ none).1 none).2 = .pending 1 ∧
    ChildrenResult.pending 0 ≠ ChildrenResult.pending 1 ∧ (2 : Nat) ≠ 1 := by
  refine ⟨rfl, rfl, rfl, ?_, by decide⟩
  intro h
  injection h with h
  exact absurd h (by decide)

/-- C1 (amended): for the promise-caching providers, a root
children-request during an in-flight population returns the same pending
operation and starts no second population, and two back-to-back root
requests from the empty state run exactly one population; for
`ListHooksProvider`, every root children-request invokes the scanner. -/
theorem at_most_one_population_for_caching_providers
    (s : CacheProviderState) (t : HooksProviderState) :
    (∀ op, s.cachedNodes = none → s.cachePromise = some op →
      ListComponentsProvider.getChildren s none = (s, .pending op)) ∧
    (s.cachedNodes = none → s.cachePromise = none →
      (ListComponentsProvider.getChildren s none).2 =
        (ListComponentsProvider.getChildren
          (ListComponentsProvider.getChildren s none).1 none).2 ∧
      (ListComponentsProvider.getChildren
          (ListComponentsProvider.getChildren s none).1 none).1 =
        (ListComponentsProvider.getChildren s none).1 ∧
      (ListComponentsProvider.getChildren s none).1.scanCalls =
        s.scanCalls + 1) ∧
    (ListHooksProvider.getChildren t none).1.scanCalls = t.scanCalls + 1 := by
  refine ⟨?_, ?_, rfl⟩
  · intro op h1 h2
    simp [ListComponentsProvider.getChildren, h1, h2]
  · intro h1 h2
    simp [ListComponentsProvider.getChildren, h1, h2]

/-- C1 witness: the amended statement applied at concrete states — a
provider with an in-flight operation 5, and the construction state. -/
theorem at_most_one_population_witness :
    ListComponentsProvider.getChildren
        ⟨none, some 5, 1, 0, 6⟩ none = (⟨none, some 5, 1, 0, 6⟩, .pending 5) ∧
    (ListComponentsProvider.getChildren initialCacheState none).1.scanCalls =
      initialCacheState.scanCalls + 1 ∧
    (ListHooksProvider.getChildren ⟨0, 0⟩ none).1.scanCalls = 0 + 1 :=
  ⟨(at_most_one_population_for_caching_providers ⟨none, some 5, 1, 0, 6⟩
      ⟨0, 0⟩).1 5 rfl rfl,
   ((at_most_one_population_for_caching_providers initialCacheState
      ⟨0, 0⟩).2.1 rfl rfl).2.2,
   (at_most_one_population_for_caching_providers initialCacheState ⟨0, 0⟩).2.2⟩

/-- C5 counterexample: on the test inputs of the claim, the cached
grouping variant titleizes the category in the label — its first group is
labelled `"Components: 1"`, not `"components: 1"` as claimed. -/
theorem cached_grouping_titleizes_labels :
    getListFilesCached watchDemo (some filesDemo) =
      .ok (some [NodeModel.mk "Components: 1" none [buttonFile],
                 NodeModel.mk "Pages: 1" none [homeFile]]) ∧
    (NodeModel.mk "Components: 1" none [buttonFile]).label ≠ "components: 1" := by
  refine ⟨rfl, ?_⟩
  intro h
  exact absurd h (by decide)

/-- A group produced by one category of the cached variant always has at
least one child: the empty-category branch returns `undefined`, never a
node. -/
theorem cachedGroup_some_children (fs : List NodeModel) (type : String)
    (n : NodeModel) (h : cachedGroup fs type = .ok (some n)) :
    n.children ≠ [] := by
  simp only [cachedGroup] at h
  split at h
  · injection h with h
    exact absurd h (by simp)
  · rename_i hlen
    split at h
    · exact Except.noConfusion h
    · injection h with h
      injection h with h
      subst h
      simp only [NodeModel.children]
      intro hnil
      exact hlen (by simp [hnil])

/-- Every defined group in a successful `cachedGroups` run has at least
one child. -/
theorem cachedGroups_no_empty (watch : List String) (fs : List NodeModel) :
    ∀ groups, cachedGroups watch fs = .ok groups →
    ∀ n, some n ∈ groups → n.children ≠ [] := by
  induction watch with
  | nil =>
    intro groups h n hn
    simp only [cachedGroups] at h
    injection h with h
    subst h
    cases hn
  | cons type rest ih =>
    intro groups h n hn
    simp only [cachedGroups] at h
    cases hg : cachedGroup fs type with
    | error e =>
      rw [hg] at h
      exact Except.noConfusion h
    | ok node =>
      rw [hg] at h
      cases ht : cachedGroups rest fs with
      | error e =>
        rw [ht] at h
        exact Except.noConfusion h
      | ok tail =>
        rw [ht] at h
        have h2 : (Except.ok (node :: tail) : Except String _) = .ok groups := h
        injection h2 with h2
        subst h2
        rcases List.mem_cons.mp hn with heq | hm
        · exact cachedGroup_some_children fs type n (heq ▸ hg)
        · exact ih tail ht n hm

/-- C5 (amended): on category list `["components", "pages"]` and files
labelled `Button.component.tsx`, `Home.page.tsx`, `utils.ts`, the plain
file-type grouping returns exactly the two nodes `"components: 1"` and
`"pages: 1"`, each with exactly one child and with `utils.ts` under
neither; the cached variant returns the same grouping with titleized
labels `"Components: 1"` and `"Pages: 1"`.  In both variants a category
with zero matching files produces no node at all: adding the zero-match
category `"hooks"` leaves both results unchanged, and in general every
group returned by either variant has at least one child. -/
theorem file_type_grouping_on_demo_inputs :
    getListFiles watchDemo (some filesDemo) =
      some [NodeModel.mk "components: 1" none [buttonFile],
            NodeModel.mk "pages: 1" none [homeFile]] ∧
    getListFilesCached watchDemo (some filesDemo) =
      .ok (some [NodeModel.mk "Components: 1" none [buttonFile],
                 NodeModel.mk "Pages: 1" none [homeFile]]) ∧
    getListFiles ["components", "pages", "hooks"] (some filesDemo) =
      some [NodeModel.mk "components: 1" none [buttonFile],
            NodeModel.mk "pages: 1" none [homeFile]] ∧
    getListFilesCached ["components", "pages", "hooks"] (some filesDemo) =
      .ok (some [NodeModel.mk "Components: 1" none [buttonFile],
                 NodeModel.mk "Pages: 1" none [homeFile]]) ∧
    (∀ (watch : List String) (fs ns : List NodeModel),
      getListFiles watch (some fs) = some ns →
      ∀ n ∈ ns, n.children ≠ []) ∧
    (∀ (watch : List String) (fs ns : List NodeModel),
      getListFilesCached watch (some fs) = .ok (some ns) →
      ∀ n ∈ ns, n.children ≠ []) := by
  refine ⟨rfl, rfl, rfl, rfl, ?_, ?_⟩
  · intro watch fs ns h n hn
    simp only [getListFiles] at h
    split at h
    · exact absurd h (by simp)
    · injection h with h
      subst h
      rw [List.mem_filterMap] at hn
      obtain ⟨ft, hft, heq⟩ := hn
      split at heq
      · rename_i hlen
        injection heq with heq
        subst heq
        intro hnil
        simp only [NodeModel.children] at hnil
        exact hlen (by simp [hnil])
      · exact absurd heq (by simp)
  · intro watch fs ns h n hn
    simp only [getListFilesCached] at h
    cases hg : cachedGroups watch fs with
    | error e =>
      rw [hg] at h
      exact Except.noConfusion h
    | ok groups =>
      rw [hg] at h
      have h2 : (Except.ok (some (groups.filterMap id)) : Except String _) =
          .ok (some ns) := h
      injection h2 with h2
      injection h2 with h2
      subst h2
      rw [List.mem_filterMap] at hn
      obtain ⟨g, hgroup, hgn⟩ := hn
      have hg2 : g = some n := hgn
      rw [hg2] at hgroup
      exact cachedGroups_no_empty watch fs groups hg n hgroup

/-- C5 witness: both general no-empty-group clauses applied at the demo
inputs, their hypotheses discharged by the concrete computations proved
in the theorem itself. -/
theorem file_type_grouping_witness :
    (NodeModel.mk "components: 1" none [buttonFile]).children ≠ [] ∧
    (NodeModel.mk "Components: 1" none [buttonFile]).children ≠ [] :=
  ⟨file_type_grouping_on_demo_inputs.2.2.2.2.1 watchDemo filesDemo
     [NodeModel.mk "components: 1" none [buttonFile],
      NodeModel.mk "pages: 1" none [homeFile]]
     file_type_grouping_on_demo_inputs.1
     (NodeModel.mk "components: 1" none [buttonFile])
     (List.mem_cons_self _ _),
   file_type_grouping_on_demo_inputs.2.2.2.2.2 watchDemo filesDemo
     [NodeModel.mk "Components: 1" none [buttonFile],
      NodeModel.mk "Pages: 1" none [homeFile]]
     file_type_grouping_on_demo_inputs.2.1
     (NodeModel.mk "Components: 1" none [buttonFile])
     (List.mem_cons_self _ _)⟩

/-- C3 counterexample: the claim says per-file containment holds for
every provider scan, but `ListHooksProvider.getListHooks` has no
`try`/`catch` — with a failing first file and a sibling containing a
hook, the whole population rejects and the sibling match (which the
scanner would have produced) is lost. -/
theorem hooks_scan_aborts_on_read_error :
    getListHooks (some [badFile, goodFile]) = .error "EACCES" ∧
    hooksFileChildren (some "good.ts") ["const count = useState(0);"] =
      [NodeModel.mk "const count = useState(0);" (some (some "good.ts", 0)) []] :=
  ⟨rfl, rfl⟩

/-- C3 (amended): in `ListComponentsProvider.getListComponents`, a
per-file read failure is contained to that file — the failing file gets
an empty child sequence and every sibling with matches still appears in
the completed result; in `ListHooksProvider.getListHooks` a read failure
is not contained — it rejects the whole scan. -/
theorem per_file_errors_contained_in_components_scan :
    (∀ (fs : List ScanFile) (f : ScanFile) (e : String),
      f ∈ fs → f.readResult = .error e →
      componentFileChildren f = [] ∧
      ∀ g ∈ fs, componentFileChildren g ≠ [] →
        (g, componentFileChildren g) ∈ getListComponents (some fs)) ∧
    (∀ (f : ScanFile) (rest : List ScanFile) (e : String),
      f.readResult = .error e →
      getListHooks (some (f :: rest)) = .error e) := by
  constructor
  · intro fs f e hf herr
    constructor
    · unfold componentFileChildren
      cases hu : f.resourceUri with
      | none => rfl
      | some uri => rw [herr]
    · intro g hg hne
      unfold getListComponents
      rw [List.mem_filter]
      refine ⟨List.mem_map_of_mem _ hg, ?_⟩
      simp [List.length_pos, hne]
  · intro f rest e herr
    simp only [getListHooks, hooksScanAll, herr]
    rfl

/-- C3 witness: the containment clause applied to the failing file of the
concrete two-file workspace, and the abort clause applied to a one-file
workspace. -/
theorem per_file_errors_contained_witness :
    componentFileChildren badFile = [] ∧
    getListHooks (some [badFile]) = .error "EACCES" :=
  ⟨(per_file_errors_contained_in_components_scan.1 [badFile, goodFile] badFile
      "EACCES" (List.mem_cons_self _ _) rfl).1,
   per_file_errors_contained_in_components_scan.2 badFile [] "EACCES" rfl⟩

/-- Taking all but the last character of `u ++ [c]` gives back `u`. -/
theorem take_pred_append_singleton (u : List Char) (c : Char) :
    (u ++ [c]).take ((u ++ [c]).length - 1) = u := by
  rw [List.length_append]
  show (u ++ [c]).take (u.length + 1 - 1) = u
  rw [Nat.add_sub_cancel]
  exact List.take_left u [c]

/-- Every `pluralize` result ends in the character `s`. -/
theorem pluralize_data_endsWith_s (s : String) : ['s'] <:+ (pluralize s).data := by
  by_cases hy : ("y" : String).data <:+ s.data
  · have hy' : jsEndsWith s "y" = true := decide_eq_true hy
    simp only [pluralize, hy', if_true]
    rw [String.data_append]
    exact List.IsSuffix.trans ⟨['i','e'], rfl⟩ (List.suffix_append _ _)
  · have hy' : jsEndsWith s "y" = false := decide_eq_false hy
    by_cases hs : ("s" : String).data <:+ s.data
    · have hs' : jsEndsWith s "s" = true := decide_eq_true hs
      simp only [pluralize, hy', hs', Bool.false_eq_true, if_false, if_true]
      exact hs
    · have hs' : jsEndsWith s "s" = false := decide_eq_false hs
      simp only [pluralize, hy', hs', Bool.false_eq_true, if_false]
      rw [String.data_append]
      exact List.suffix_append _ _

/-- `pluralize` is the identity on strings that end in `s` (which cannot
simultaneously end in `y`). -/
theorem pluralize_of_endsWith_s (t : String) (hs : ['s'] <:+ t.data)
    (hy : ¬(['y'] <:+ t.data)) : pluralize t = t := by
  have hy' : jsEndsWith t "y" = false := decide_eq_false hy
  have hs' : jsEndsWith t "s" = true := decide_eq_true hs
  simp only [pluralize, hy', hs', Bool.false_eq_true, if_false, if_true]

/-- C9: `pluralize` is idempotent — its result always ends in `s`, and
`pluralize` is the identity on strings ending in `s`. -/
theorem pluralize_idempotent (s : String) :
    pluralize (pluralize s) = pluralize s := by
  have hs : ['s'] <:+ (pluralize s).data := pluralize_data_endsWith_s s
  refine pluralize_of_endsWith_s _ hs ?_
  intro hy
  obtain ⟨u, hu⟩ := hy
  obtain ⟨v, hv⟩ := hs
  have h1 : (pluralize s).data.getLast? = some 'y' := by
    rw [← hu]; exact List.getLast?_concat _
  have h2 : (pluralize s).data.getLast? = some 's' := by
    rw [← hv]; exact List.getLast?_concat _
  rw [h1] at h2
  injection h2 with h2
  exact absurd h2 (by decide)

/-- C9 witness: idempotence at a concrete input. -/
theorem pluralize_idempotent_witness :
    pluralize (pluralize "file") = pluralize "file" :=
  pluralize_idempotent "file"

/-- C4 counterexample: `"movie"` is a regular noun not ending in `s`, yet
`singularize (pluralize "movie")` is `"movy"`, not `"movie"` — the
`ies → y` rule of `singularize` misfires on plurals of words ending in
`ie`. -/
theorem singularize_pluralize_movie :
    isPluralizable "movie" = false ∧ pluralize "movie" = "movies" ∧
    singularize (pluralize "movie") = "movy" ∧ ("movy" : String) ≠ "movie" := by
  decide

/-- C4 (amended): for every string `w` that neither ends in `s` nor ends
in `ie`, `singularize (pluralize w) = w`. -/
theorem singularize_pluralize_roundtrip (w : String)
    (hs : isPluralizable w = false) (hie : ¬(['i','e'] <:+ w.data)) :
    singularize (pluralize w) = w := by
  have hsP : ¬(("s" : String).data <:+ w.data) := of_decide_eq_false hs
  by_cases hy : ("y" : String).data <:+ w.data
  · obtain ⟨u, hu⟩ := hy
    have hy' : jsEndsWith w "y" = true := decide_eq_true ⟨u, hu⟩
    have hpl : pluralize w = jsSliceDropRight w 1 ++ "ies" := by
      simp only [pluralize, hy', if_true]
    have htake : w.data.take (w.data.length - 1) = u := by
      rw [← hu]
      exact take_pred_append_singleton u 'y'
    have hdata : (pluralize w).data = u ++ ['i','e','s'] := by
      rw [hpl, String.data_append]
      show w.data.take (w.data.length - 1) ++ ['i','e','s'] = u ++ ['i','e','s']
      rw [htake]
    have hies : jsEndsWith (pluralize w) "ies" = true := by
      apply decide_eq_true
      show ("ies" : String).data <:+ (pluralize w).data
      rw [hdata]
      exact List.suffix_append u ['i','e','s']
    simp only [singularize, hies, if_true]
    apply string_eq_of_data
    rw [String.data_append]
    show (pluralize w).data.take ((pluralize w).data.length - 3) ++ ['y'] = w.data
    rw [hdata, List.length_append]
    show (u ++ ['i','e','s']).take (u.length + 3 - 3) ++ ['y'] = w.data
    rw [Nat.add_sub_cancel, List.take_left]
    exact hu
  · have hy' : jsEndsWith w "y" = false := decide_eq_false hy
    have hs' : jsEndsWith w "s" = false := decide_eq_false hsP
    have hpl : pluralize w = w ++ "s" := by
      simp only [pluralize, hy', hs', Bool.false_eq_true, if_false]
    have hdata : (pluralize w).data = w.data ++ ['s'] := by
      rw [hpl, String.data_append]
    have hnies : jsEndsWith (pluralize w) "ies" = false := by
      apply decide_eq_false
      intro hsuf
      obtain ⟨t, ht⟩ := hsuf
      rw [hdata] at ht
      have ht2 : (t ++ ['i','e']) ++ ['s'] = w.data ++ ['s'] := by
        rw [List.append_assoc]
        exact ht
      exact hie ⟨t, List.append_cancel_right ht2⟩
    have hsS : jsEndsWith (pluralize w) "s" = true := by
      apply decide_eq_true
      show ("s" : String).data <:+ (pluralize w).data
      rw [hdata]
      exact List.suffix_append w.data ['s']
    simp only [singularize, hnies, hsS, Bool.false_eq_true, if_false, if_true]
    apply string_eq_of_data
    show (pluralize w).data.take ((pluralize w).data.length - 1) = w.data
    rw [hdata]
    exact take_pred_append_singleton w.data 's'

/-- C4 witness: the round trip at `"file"`, whose hypotheses hold by
computation. -/
theorem singularize_pluralize_roundtrip_witness :
    isPluralizable "file" = false ∧ ¬(['i','e'] <:+ "file".data) ∧
    singularize (pluralize "file") = "file" :=
  ⟨by decide, by decide,
   singularize_pluralize_roundtrip "file" (by decide) (by decide)⟩

/-- `jsSplitSpace` always yields at least one component. -/
theorem jsSplitSpace_ne_nil (cs : List Char) : jsSplitSpace cs ≠ [] := by
  cases cs with
  | nil => simp [jsSplitSpace]
  | cons c cs =>
    simp only [jsSplitSpace]
    split
    · simp
    · split <;> simp

/-- Splitting a character list with two consecutive spaces yields an
empty component after the first one. -/
theorem nil_mem_tail_jsSplitSpace (pre post : List Char) :
    [] ∈ (jsSplitSpace (pre ++ ' ' :: ' ' :: post)).tail := by
  induction pre with
  | nil =>
    simp [jsSplitSpace]
  | cons c pre ih =>
    by_cases hc : c = ' '
    · subst hc
      simp only [List.cons_append, jsSplitSpace, if_pos rfl, List.tail_cons]
      exact List.mem_of_mem_tail ih
    · simp only [List.cons_append, jsSplitSpace, if_neg hc]
      cases hR : jsSplitSpace (pre ++ ' ' :: ' ' :: post) with
      | nil => exact absurd hR (jsSplitSpace_ne_nil _)
      | cons w ws =>
        rw [hR] at ih
        simpa using ih

/-- An empty word makes the word-capitalization map fail. -/
theorem mapWordsOption_eq_none_of_mem_nil (ws : List (List Char))
    (h : [] ∈ ws) : mapWordsOption capitalizeWord ws = none := by
  induction ws with
  | nil => cases h
  | cons w ws ih =>
    rcases List.mem_cons.mp h with heq | hm
    · rw [← heq]
      rfl
    · cases w with
      | nil => rfl
      | cons c cw =>
        simp only [mapWordsOption, capitalizeWord, ih hm]

/-- C10: `titleize` is not total — on the empty string, and on every
string containing two consecutive spaces, splitting on a single space
yields an empty word, indexing its first character is undefined, and the
source throws; the embedding returns `none` there. -/
theorem titleize_throws_on_empty_word (s : String)
    (h : s = "" ∨ [' ', ' '] <:+: s.data) :
    titleize s = none := by
  rcases h with h | h
  · rw [h]
    rfl
  · obtain ⟨pre, post, hpp⟩ := h
    have hdata : s.data = pre ++ ' ' :: ' ' :: post := by
      rw [← hpp, List.append_assoc]
      rfl
    have hmem : [] ∈ jsSplitSpace s.data := by
      rw [hdata]
      exact List.mem_of_mem_tail (nil_mem_tail_jsSplitSpace pre post)
    unfold titleize
    rw [mapWordsOption_eq_none_of_mem_nil _ hmem]
    rfl

/-- C10 witness: the failure at the empty string and at `"a  b"`. -/
theorem titleize_throws_witness :
    titleize "" = none ∧ titleize "a  b" = none :=
  ⟨titleize_throws_on_empty_word "" (Or.inl rfl),
   titleize_throws_on_empty_word "a  b" (Or.inr ⟨['a'], ['b'], rfl⟩)⟩
